import Mathlib

/-!
Verification development for the PolyScalping engine.

Shallow embedding of the per-market scalping strategy and its
orchestration code:

* `MultiLevelScalpingStrategyV2` (multi_level_strategy_v2.py) — the
  refactored FSM: positions are the single source of truth, counters are
  derived; `evaluate_market` routes between the <5-minute emergency mode
  (force unwind / high-scalp) and the normal mode (level exit / entry).
* `MultiLevelScalpingStrategy` (multi_level_scalping_strategy.py) — the
  V1 strategy: entry debounce through `last_entry_time`, trade counters,
  active exit-order bookkeeping, and the per-position target-exit price.
* The orchestrator's `execute_signal` branches for `PLACE_TP_LIMIT` and
  `EXIT`/`EXIT_SELL` (btc_web_server.py).
* The per-token `OrderBook` of tracker.py.

Python floats are modelled as rationals (ℚ); the claims under study are
about control flow and exact arithmetic identities, not rounding.
Per-market dictionaries are modelled as per-market state records (all
claims are per-market; dictionary access with a default corresponds to
the record's default field value).
-/

namespace PolyScalping

/-- Market side of a binary market token. -/
inductive Side
  | yes
  | no
deriving DecidableEq, Repr

/-- Signal action strings of `ScalpSignal.action`. -/
inductive Action
  | ENTER_YES
  | ENTER_NO
  | EXIT
  | EXIT_SELL
  | PLACE_TP_LIMIT
deriving DecidableEq, Repr

/-- Venue order side. -/
inductive OrderSide
  | BUY
  | SELL
deriving DecidableEq, Repr

/-- The ad-hoc metadata dict attached to a `ScalpSignal`; fields that a
given signal does not set stay `none` / their default. -/
structure Metadata where
  side : Side
  level : Option ℚ := none
  is_high_price_scalp : Bool := false
  profit_target : Option ℚ := none
  fallback_sell_price : Option ℚ := none
  fallback_token : Option String := none
  order_type : Option String := none
deriving DecidableEq, Repr

/-- A strategy signal (`ScalpSignal`); the log-only `reason`,
`confidence` and `edge` fields are omitted. -/
structure ScalpSignal where
  action : Action
  token_id : String
  price : ℚ
  size : ℚ
  urgency : String
  metadata : Metadata
deriving DecidableEq, Repr

/-- `MarketContext` of multi_level_strategy_v2.py: the prices are the
current ASK prices of the two tokens. -/
structure MarketContext where
  end_time : ℚ
  yes_price : ℚ
  no_price : ℚ
  token_yes : String
  token_no : String
deriving DecidableEq, Repr

namespace V2

/-- `LevelPosition` of multi_level_strategy_v2.py. -/
structure LevelPosition where
  side : Side
  entry_price : ℚ
  size : ℚ
  entry_time : ℚ
  is_high_scalp : Bool
  profit_target : ℚ
deriving DecidableEq, Repr

/-- Per-market strategy state of `MultiLevelScalpingStrategyV2`:
positions plus the completed-cycles counter. -/
structure State where
  positions : List LevelPosition := []
  completed_cycles : Nat := 0
deriving DecidableEq, Repr

-- === configuration (constructor defaults) ===

def entry_levels : List ℚ := [34/100, 24/100, 14/100]
def level_size : ℚ := 10
def level_profit_target : ℚ := 5/100
def high_scalp_threshold : ℚ := 85/100
def high_scalp_size : ℚ := 5
def high_scalp_profit_target : ℚ := 2/100
def max_high_scalp_per_market : Nat := 4
def min_time_for_level_entry : ℚ := 420
def force_unwind_time : ℚ := 300
def max_completed_cycles : Nat := 3

-- === derived statistics (positions are the single source of truth) ===

/-- `_get_level_positions`. -/
def levelPositions (st : State) : List LevelPosition :=
  st.positions.filter (fun p => !p.is_high_scalp)

/-- `_get_high_scalp_positions`. -/
def highScalpPositions (st : State) : List LevelPosition :=
  st.positions.filter (fun p => p.is_high_scalp)

/-- `_count_high_scalp_positions`. -/
def countHighScalp (st : State) : Nat :=
  (highScalpPositions st).length

/-- Positions of one side within a list. -/
def sidePositions (ps : List LevelPosition) (sd : Side) : List LevelPosition :=
  ps.filter (fun p => p.side == sd)

/-- Aggregate size of a list of positions. -/
def totalSize (ps : List LevelPosition) : ℚ :=
  (ps.map (fun p => p.size)).sum

/-- Size-weighted average entry price of a list of positions. -/
def avgEntry (ps : List LevelPosition) : ℚ :=
  (ps.map (fun p => p.size * p.entry_price)).sum / totalSize ps

/-- `_has_position_at_level` with its default tolerance 0.01: some LEVEL
position (of either side) has entry price within 0.01 of `level`. -/
def hasPositionAtLevel (st : State) (level : ℚ) : Bool :=
  (levelPositions st).any (fun p => |p.entry_price - level| < 1/100)

-- === fill / exit-fill acknowledgements ===

/-- `on_order_filled`: append a position built from the fill. -/
def onOrderFilled (st : State) (sd : Side) (price size entryTime : ℚ)
    (meta : Metadata) : State :=
  { st with positions := st.positions ++
      [{ side := sd, entry_price := price, size := size,
         entry_time := entryTime,
         is_high_scalp := meta.is_high_price_scalp,
         profit_target := meta.profit_target.getD level_profit_target }] }

/-- `on_exit_filled`: remove every position on `sd`; when the ack is not
classified HIGH_SCALP and at least one position was removed, increment
the completed-cycles counter. -/
def onExitFilled (st : State) (sd : Side) (is_high_scalp : Bool) : State :=
  let removed := st.positions.filter (fun p => p.side == sd)
  let rest := st.positions.filter (fun p => p.side != sd)
  if !is_high_scalp && !removed.isEmpty then
    { positions := rest, completed_cycles := st.completed_cycles + 1 }
  else
    { st with positions := rest }

-- === evaluation ===

/-- `_check_force_unwind` (<5 min): unwind all LEVEL positions of the
larger side by a marketable BUY of the opposite token; the own token and
own current price travel as SELL fallback metadata. -/
def checkForceUnwind (st : State) (ctx : MarketContext) : Option ScalpSignal :=
  let lps := levelPositions st
  if lps.isEmpty then none
  else
    let yesPs := sidePositions lps Side.yes
    let noPs := sidePositions lps Side.no
    let totalYes := totalSize yesPs
    let totalNo := totalSize noPs
    if !yesPs.isEmpty && (noPs.isEmpty || totalNo ≤ totalYes) then
      some { action := Action.EXIT, token_id := ctx.token_no,
             price := ctx.no_price, size := totalYes,
             urgency := "CRITICAL",
             metadata := { side := Side.yes, is_high_price_scalp := false,
                           fallback_sell_price := some ctx.yes_price,
                           fallback_token := some ctx.token_yes } }
    else if !noPs.isEmpty then
      some { action := Action.EXIT, token_id := ctx.token_yes,
             price := ctx.yes_price, size := totalNo,
             urgency := "CRITICAL",
             metadata := { side := Side.no, is_high_price_scalp := false,
                           fallback_sell_price := some ctx.no_price,
                           fallback_token := some ctx.token_no } }
    else none

/-- `_check_level_exit` (≥5 min): when the current unwind price reaches
the target `1 − (1 + target)·avg_entry`, emit `PLACE_TP_LIMIT` at the
current unwind price (the opposite side's ask). -/
def checkLevelExit (st : State) (ctx : MarketContext) : Option ScalpSignal :=
  let lps := levelPositions st
  if lps.isEmpty then none
  else
    let yesPs := sidePositions lps Side.yes
    let noPs := sidePositions lps Side.no
    let yesSig : Option ScalpSignal :=
      if !yesPs.isEmpty then
        let tot := totalSize yesPs
        let avg := avgEntry yesPs
        let target := 1 - (1 + level_profit_target) * avg
        if ctx.no_price ≤ target then
          some { action := Action.PLACE_TP_LIMIT, token_id := ctx.token_no,
                 price := ctx.no_price, size := tot, urgency := "MEDIUM",
                 metadata := { side := Side.yes, is_high_price_scalp := false,
                               order_type := some "BUY" } }
        else none
      else none
    match yesSig with
    | some s => some s
    | none =>
      if !noPs.isEmpty then
        let tot := totalSize noPs
        let avg := avgEntry noPs
        let target := 1 - (1 + level_profit_target) * avg
        if ctx.yes_price ≤ target then
          some { action := Action.PLACE_TP_LIMIT, token_id := ctx.token_yes,
                 price := ctx.yes_price, size := tot, urgency := "MEDIUM",
                 metadata := { side := Side.no, is_high_price_scalp := false,
                               order_type := some "BUY" } }
        else none
      else none

/-- `_check_high_scalp_exit` (<5 min): marketable EXIT of a HIGH_SCALP
stack once the unwind price reaches its 2% target. -/
def checkHighScalpExit (st : State) (ctx : MarketContext) : Option ScalpSignal :=
  let hps := highScalpPositions st
  if hps.isEmpty then none
  else
    let yesPs := sidePositions hps Side.yes
    let noPs := sidePositions hps Side.no
    let yesSig : Option ScalpSignal :=
      if !yesPs.isEmpty then
        let tot := totalSize yesPs
        let avg := avgEntry yesPs
        let target := 1 - (1 + high_scalp_profit_target) * avg
        if ctx.no_price ≤ target then
          some { action := Action.EXIT, token_id := ctx.token_no,
                 price := ctx.no_price, size := tot, urgency := "HIGH",
                 metadata := { side := Side.yes, is_high_price_scalp := true,
                               fallback_sell_price := some ctx.yes_price,
                               fallback_token := some ctx.token_yes } }
        else none
      else none
    match yesSig with
    | some s => some s
    | none =>
      if !noPs.isEmpty then
        let tot := totalSize noPs
        let avg := avgEntry noPs
        let target := 1 - (1 + high_scalp_profit_target) * avg
        if ctx.yes_price ≤ target then
          some { action := Action.EXIT, token_id := ctx.token_yes,
                 price := ctx.yes_price, size := tot, urgency := "HIGH",
                 metadata := { side := Side.no, is_high_price_scalp := true,
                               fallback_sell_price := some ctx.no_price,
                               fallback_token := some ctx.token_no } }
        else none
      else none

/-- `_check_high_scalp_entry` (<5 min): buy the side whose price is at or
above the 0.85 threshold, size 5, target 2%. -/
def checkHighScalpEntry (st : State) (ctx : MarketContext) (now : ℚ) :
    Option ScalpSignal :=
  if force_unwind_time ≤ ctx.end_time - now then none
  else if max_high_scalp_per_market ≤ countHighScalp st then none
  else if !(highScalpPositions st).isEmpty then none
  else if high_scalp_threshold ≤ ctx.yes_price then
    some { action := Action.ENTER_YES, token_id := ctx.token_yes,
           price := ctx.yes_price, size := high_scalp_size, urgency := "HIGH",
           metadata := { side := Side.yes, level := some ctx.yes_price,
                         is_high_price_scalp := true,
                         profit_target := some high_scalp_profit_target } }
  else if high_scalp_threshold ≤ ctx.no_price then
    some { action := Action.ENTER_NO, token_id := ctx.token_no,
           price := ctx.no_price, size := high_scalp_size, urgency := "HIGH",
           metadata := { side := Side.no, level := some ctx.no_price,
                         is_high_price_scalp := true,
                         profit_target := some high_scalp_profit_target } }
  else none

/-- The level scan of `_check_level_entry`: walk `levels` in list order;
at each level whose trigger `price < L` fires, skip it when a LEVEL
position already sits at `L` or the opposite side holds LEVEL positions,
otherwise select it. -/
def findEntryLevel (st : State) (price : ℚ) (oppBlocked : Bool) :
    List ℚ → Option ℚ
  | [] => none
  | L :: rest =>
    if price < L then
      if hasPositionAtLevel st L then findEntryLevel st price oppBlocked rest
      else if oppBlocked then findEntryLevel st price oppBlocked rest
      else some L
    else findEntryLevel st price oppBlocked rest

/-- `_check_level_entry` (≥5 min): YES levels are scanned before NO
levels; the emitted price is the side's current price, the crossed level
travels in the metadata. -/
def checkLevelEntry (st : State) (ctx : MarketContext) (now : ℚ) :
    Option ScalpSignal :=
  if ctx.end_time - now < min_time_for_level_entry then none
  else if max_completed_cycles ≤ st.completed_cycles then none
  else
    let lps := levelPositions st
    let yesPs := sidePositions lps Side.yes
    let noPs := sidePositions lps Side.no
    if !yesPs.isEmpty && !noPs.isEmpty then none
    else
      match findEntryLevel st ctx.yes_price (!noPs.isEmpty) entry_levels with
      | some L =>
        some { action := Action.ENTER_YES, token_id := ctx.token_yes,
               price := ctx.yes_price, size := level_size, urgency := "MEDIUM",
               metadata := { side := Side.yes, level := some L,
                             is_high_price_scalp := false,
                             profit_target := some level_profit_target } }
      | none =>
        match findEntryLevel st ctx.no_price (!yesPs.isEmpty) entry_levels with
        | some L =>
          some { action := Action.ENTER_NO, token_id := ctx.token_no,
                 price := ctx.no_price, size := level_size, urgency := "MEDIUM",
                 metadata := { side := Side.no, level := some L,
                               is_high_price_scalp := false,
                               profit_target := some level_profit_target } }
        | none => none

/-- `evaluate_market`: <5-minute emergency mode (force unwind, then
high-scalp exit, then high-scalp entry) or normal mode (level exit, then
level entry). -/
def evaluateMarket (st : State) (ctx : MarketContext) (now : ℚ) :
    Option ScalpSignal :=
  if ctx.end_time - now < force_unwind_time then
    match checkForceUnwind st ctx with
    | some s => some s
    | none =>
      match checkHighScalpExit st ctx with
      | some s => some s
      | none => checkHighScalpEntry st ctx now
  else
    match checkLevelExit st ctx with
    | some s => some s
    | none => checkLevelEntry st ctx now

end V2

namespace V1

/-- `LevelPosition` of multi_level_scalping_strategy.py (the V1
strategy): positions additionally carry the grid level they were entered
at and their defaulted fields. -/
structure LevelPosition where
  level_price : ℚ
  side : Side
  entry_price : ℚ
  size : ℚ
  entry_time : ℚ
  is_high_price_scalp : Bool := false
  profit_target : ℚ := 5/100
deriving DecidableEq, Repr

/-- `LevelPosition.get_target_exit_price`: the price at which unwinding
yields exactly `profit_target` of the entry cost, clamped to ≥ 0.01. -/
def getTargetExitPrice (p : LevelPosition) : ℚ :=
  max (1/100) (1 - (1 + p.profit_target) * p.entry_price)

/-- Per-market state of `MultiLevelScalpingStrategy` (V1).
`last_entry_time` is the `(side, level) → time` entry-debounce record; a
missing key reads as 0. -/
structure State where
  positions : List LevelPosition := []
  last_entry_time : List ((Side × ℚ) × ℚ) := []
  trade_count : Nat := 0
  high_scalp_count : Nat := 0
  active_exit_orders : List String := []
  last_tp_limit_price : Option (String × ℚ) := none
  last_exit_signal_time : Option ℚ := none
deriving DecidableEq, Repr

def entry_levels : List ℚ := [34/100, 24/100, 14/100]
def level_sizes : List ℚ := [10, 10, 10]
def take_profit_pct : ℚ := 5/100
def max_trades_per_market : Nat := 3

/-- `self.last_entry_time[market_id].get((side, level), 0)`. -/
def lookupEntryTime (st : State) (sd : Side) (level : ℚ) : ℚ :=
  (st.last_entry_time.lookup (sd, level)).getD 0

/-- Record `(side, level) → now` (dict assignment; the freshest binding
shadows older ones). -/
def recordEntryTime (st : State) (sd : Side) (level : ℚ) (now : ℚ) : State :=
  { st with last_entry_time := ((sd, level), now) :: st.last_entry_time }

/-- `calculate_order_size`. -/
def calculateOrderSize (i : Nat) : ℚ :=
  (level_sizes.get? i).getD 10

/-- The V1 level scan of `_check_entry`: indices are walked in reversed
order (lowest level first); the first level whose trigger `price < L`
fires and whose `(side, L)` debounce record is absent (reads 0) is
selected, together with its index. -/
def findUnenteredLevel (st : State) (sd : Side) (price : ℚ) :
    List (Nat × ℚ) → Option (Nat × ℚ)
  | [] => none
  | (i, L) :: rest =>
    if price < L then
      if lookupEntryTime st sd L = 0 then some (i, L)
      else findUnenteredLevel st sd price rest
    else findUnenteredLevel st sd price rest

/-- The indexed levels in the order V1's reversed loop visits them. -/
def reversedIndexedLevels : List (Nat × ℚ) :=
  (List.zip (List.range entry_levels.length) entry_levels).reverse

/-- `_check_entry` of the V1 strategy: gates on trade count, time
remaining and active exit orders, then tries the YES levels, then the NO
levels; emission records the `(side, level)` debounce timestamp, and the
emitted price is the side's current price. Returns the signal (if any)
together with the updated state. -/
def checkEntry (st : State) (ctx : MarketContext) (now : ℚ) :
    Option ScalpSignal × State :=
  if max_trades_per_market ≤ st.trade_count then (none, st)
  else if ctx.end_time - now < 300 then (none, st)
  else if ctx.end_time - now < 420 then (none, st)
  else if !st.active_exit_orders.isEmpty then (none, st)
  else
    match findUnenteredLevel st Side.yes ctx.yes_price reversedIndexedLevels with
    | some (i, L) =>
      (some { action := Action.ENTER_YES, token_id := ctx.token_yes,
              price := ctx.yes_price, size := calculateOrderSize i,
              urgency := "MEDIUM",
              metadata := { side := Side.yes, level := some L } },
       recordEntryTime st Side.yes L now)
    | none =>
      match findUnenteredLevel st Side.no ctx.no_price reversedIndexedLevels with
      | some (i, L) =>
        (some { action := Action.ENTER_NO, token_id := ctx.token_no,
                price := ctx.no_price, size := calculateOrderSize i,
                urgency := "MEDIUM",
                metadata := { side := Side.no, level := some L } },
         recordEntryTime st Side.no L now)
      | none => (none, st)

/-- `on_exit_filled` of the V1 strategy: drop every position on `sd`,
clear the active exit orders, the last TP limit price and the exit-signal
timer; when the ack is not HIGH_SCALP and no LEVEL position remains in
the market, increment `trade_count` (a completed cycle).
`last_entry_time` is not touched. -/
def onExitFilled (st : State) (sd : Side) (is_high_price_scalp : Bool) : State :=
  let rest := st.positions.filter (fun p => p.side != sd)
  let st1 := { st with
               positions := rest,
               active_exit_orders := [],
               last_tp_limit_price := none,
               last_exit_signal_time := none }
  if !is_high_price_scalp then
    if (rest.filter (fun p => !p.is_high_price_scalp)).isEmpty then
      { st1 with trade_count := st1.trade_count + 1 }
    else st1
  else st1

end V1

/-! ## Orchestrator (btc_web_server.py `execute_signal`) -/

namespace Server

/-- One venue order request issued by the orchestrator. -/
structure PlacedOrder where
  token_id : String
  price : ℚ
  size : ℚ
  side : OrderSide
  post_only : Bool
deriving DecidableEq, Repr

/-- Outcome of the `PLACE_TP_LIMIT` branch of `execute_signal`:
the updated `active_exit_orders` entry for the market, the orders
attempted at the venue, and the cancellations issued. -/
structure TpOutcome where
  activeExitOrders : List String
  attempted : List PlacedOrder
  cancelled : List String
deriving DecidableEq, Repr

/-- The `PLACE_TP_LIMIT` branch of btc_web_server.py `execute_signal`.
`activeOrders` is `strategy.active_exit_orders[market_id]` (empty when
the key is absent), `balance` the queried USDC balance, and `venueResp`
the order id of a successful placement (`none` on failure). An already
active TP order short-circuits the branch; insufficient balance or a
failed placement appends a sentinel so the next tick does not retry. -/
def executeTpLimit (activeOrders : List String) (balance : ℚ)
    (venueResp : Option String) (sig : ScalpSignal) : TpOutcome :=
  let orderSide :=
    if sig.metadata.order_type == some "SELL" then OrderSide.SELL
    else OrderSide.BUY
  if !activeOrders.isEmpty then
    { activeExitOrders := activeOrders, attempted := [], cancelled := [] }
  else if orderSide == OrderSide.BUY && balance < sig.size * sig.price then
    { activeExitOrders := activeOrders ++ ["insufficient-balance"],
      attempted := [], cancelled := [] }
  else
    let order : PlacedOrder :=
      { token_id := sig.token_id, price := sig.price, size := sig.size,
        side := orderSide, post_only := true }
    match venueResp with
    | some oid =>
      { activeExitOrders := activeOrders ++ [oid],
        attempted := [order], cancelled := [] }
    | none =>
      { activeExitOrders := activeOrders ++ ["failed-order"],
        attempted := [order], cancelled := [] }

/-- Position/average fields of the server's per-market context
(scalping_strategy.py `MarketContext`) that the EXIT branch reads. -/
structure BotPositions where
  position_yes : ℚ := 0
  position_no : ℚ := 0
  avg_price_yes : ℚ := 0
  avg_price_no : ℚ := 0
deriving DecidableEq, Repr

/-- Venue responses the EXIT branch may consume: the collateral balance
and the success of the first and (when attempted) fallback order. -/
structure ExitEnv where
  balance : ℚ
  firstOrderOk : Bool
  fallbackOrderOk : Bool
deriving DecidableEq, Repr

/-- Observable outcome of the `EXIT` / `EXIT_SELL` branch of
btc_web_server.py `execute_signal`. -/
structure ExitOutcome where
  cancelled : List String
  attempted : List PlacedOrder
  success : Bool
  exitFilledSide : Option Side
  stratAfter : V1.State
  posAfter : BotPositions
  totalTradesDelta : Nat
  statsUpdated : Bool
deriving DecidableEq, Repr

/-- The `EXIT` / `EXIT_SELL` branch of btc_web_server.py
`execute_signal`: cancel all active TP orders; for `EXIT`, query the
balance and fall back to SELLing the held token (metadata
`fallback_token` / `fallback_sell_price`) when the balance does not
cover the unwind BUY; if the first order fails and it was an unwind BUY,
retry as the SELL fallback; only on overall success update the context
positions, invoke the strategy's `on_exit_filled`, and bump the trade
statistics. -/
def executeExit (sig : ScalpSignal) (pos : BotPositions) (strat : V1.State)
    (env : ExitEnv) : ExitOutcome :=
  let cancelled := strat.active_exit_orders
  let strat1 := { strat with active_exit_orders := ([] : List String) }
  -- balance gate: EXIT turns into EXIT_SELL when cash cannot cover the BUY
  let firstTry : Action × String × ℚ × OrderSide :=
    if sig.action == Action.EXIT then
      if env.balance < sig.size * sig.price then
        (Action.EXIT_SELL,
         sig.metadata.fallback_token.getD sig.token_id,
         (sig.metadata.fallback_sell_price.map id).getD sig.price,
         OrderSide.SELL)
      else (Action.EXIT, sig.token_id, sig.price, OrderSide.BUY)
    else (sig.action, sig.token_id, sig.price, OrderSide.SELL)
  let (act1, tok1, price1, side1) := firstTry
  let order1 : PlacedOrder :=
    { token_id := tok1, price := price1, size := sig.size,
      side := side1, post_only := false }
  -- retry as SELL fallback when the unwind BUY fails and the metadata
  -- carries a (truthy) fallback token and price
  let fallbackPair : Option (String × ℚ) :=
    match sig.metadata.fallback_token, sig.metadata.fallback_sell_price with
    | some ft, some fp => if ft ≠ "" ∧ fp ≠ 0 then some (ft, fp) else none
    | _, _ => none
  let afterFirst : Bool × List PlacedOrder :=
    if env.firstOrderOk then (true, [order1])
    else if act1 == Action.EXIT && side1 == OrderSide.BUY then
      match fallbackPair with
      | some (ft, fp) =>
        (env.fallbackOrderOk,
         [order1, { token_id := ft, price := fp, size := sig.size,
                    side := OrderSide.SELL, post_only := false }])
      | none => (false, [order1])
    else (false, [order1])
  let (success, attempted) := afterFirst
  let exitSide := if 0 < pos.position_yes then Side.yes else Side.no
  if success then
    let pos1 :=
      if 0 < pos.position_yes then
        let py := max 0 (pos.position_yes - sig.size)
        { pos with
          position_yes := py,
          avg_price_yes := if py = 0 then 0 else pos.avg_price_yes }
      else
        let pn := max 0 (pos.position_no - sig.size)
        { pos with
          position_no := pn,
          avg_price_no := if pn = 0 then 0 else pos.avg_price_no }
    { cancelled := cancelled, attempted := attempted, success := true,
      exitFilledSide := some exitSide,
      stratAfter := V1.onExitFilled strat1 exitSide false,
      posAfter := pos1, totalTradesDelta := 1, statsUpdated := true }
  else
    { cancelled := cancelled, attempted := attempted, success := false,
      exitFilledSide := none, stratAfter := strat1, posAfter := pos,
      totalTradesDelta := 0, statsUpdated := false }

end Server

/-! ## Order-book mirror (tracker.py `OrderBook`) -/

namespace Tracker

/-- A side of the book: the python `price → size` dict as an association
list; the update functions below keep at most one binding per price.
`lookupLevel` is the dict read. -/
def lookupLevel : List (ℚ × ℚ) → ℚ → Option ℚ
  | [], _ => none
  | q :: rest, p => if q.1 = p then some q.2 else lookupLevel rest p

/-- `p in side_map` (python key membership). -/
def containsLevel (m : List (ℚ × ℚ)) (p : ℚ) : Bool :=
  m.any (fun q => q.1 == p)

/-- `del side_map[p]` (python deletes the key). -/
def delLevel (m : List (ℚ × ℚ)) (p : ℚ) : List (ℚ × ℚ) :=
  m.filter (fun q => q.1 != p)

/-- `side_map[p] = s` (dict assignment: overwrite if present, else add). -/
def setLevel (m : List (ℚ × ℚ)) (p s : ℚ) : List (ℚ × ℚ) :=
  if containsLevel m p then
    m.map (fun q => if q.1 == p then (p, s) else q)
  else m ++ [(p, s)]

/-- One `{price, size}` update of `OrderBook._update_side`: size 0
deletes the level, otherwise the size is stored. -/
def applyLevelUpdate (m : List (ℚ × ℚ)) (u : ℚ × ℚ) : List (ℚ × ℚ) :=
  if u.2 = 0 then delLevel m u.1 else setLevel m u.1 u.2

/-- `OrderBook._update_side`: fold the update list into one side. -/
def updateSide (m : List (ℚ × ℚ)) (us : List (ℚ × ℚ)) : List (ℚ × ℚ) :=
  us.foldl applyLevelUpdate m

/-- `OrderBook`: two independent price→size maps. -/
structure OrderBook where
  bids : List (ℚ × ℚ) := []
  asks : List (ℚ × ℚ) := []
deriving DecidableEq, Repr

/-- `OrderBook.update`: apply the bid updates to the bid side and the ask
updates to the ask side; neither side constrains the other. -/
def OrderBook.update (ob : OrderBook) (bidUpdates askUpdates : List (ℚ × ℚ)) :
    OrderBook :=
  { bids := updateSide ob.bids bidUpdates,
    asks := updateSide ob.asks askUpdates }

/-- `MarketDataStreamer._process_item` routing of one `price_changes`
delta: `SELL` updates the asks, `BUY` the bids, anything else is
ignored. -/
def applyPriceChange (ob : OrderBook) (sideStr : String) (price size : ℚ) :
    OrderBook :=
  if sideStr == "SELL" then ob.update [] [(price, size)]
  else if sideStr == "BUY" then ob.update [(price, size)] []
  else ob

end Tracker

/-! ## Theorems -/

section Claims

open V2

/-- C3 counterexample data: a HIGH_SCALP fill on YES followed by an
exit-fill ack for YES whose classification is LEVEL. -/
def c3Meta : Metadata :=
  { side := Side.yes, is_high_price_scalp := true,
    profit_target := some (2/100) }

def c3State1 : V2.State := V2.onOrderFilled {} Side.yes (9/10) 5 0 c3Meta

def c3State2 : V2.State := V2.onExitFilled c3State1 Side.yes false

/-- C3: the claim states the completed-cycles counter increases only when
a LEVEL-classified exit-fill ack removes the last LEVEL position on its
side. Counterexample: after a single HIGH_SCALP fill on YES the market
holds no LEVEL position at all, yet a LEVEL-classified exit-fill ack for
YES increments the counter — no LEVEL position was removed. -/
theorem C3_counterexample :
    V2.levelPositions c3State1 = [] ∧
    c3State2.completed_cycles = c3State1.completed_cycles + 1 := by
  constructor
  · simp [c3State1, V2.onOrderFilled, V2.levelPositions, c3Meta]
  · simp [c3State2, c3State1, V2.onOrderFilled, V2.onExitFilled, c3Meta]

/-- C3 (amended): the completed-cycles counter increases by exactly 1
exactly when an exit-fill ack whose classification is LEVEL removes at
least one position (of either classification) on its side — after which
the side's LEVEL list is empty, since an exit-fill removes every
position on the side; an exit-fill ack whose classification is
HIGH_SCALP never changes the counter, and a fill ack never changes the
counter. -/
theorem C3_cycle_counter (st : V2.State) (sd : Side) :
    (V2.onExitFilled st sd true).completed_cycles = st.completed_cycles ∧
    (V2.onExitFilled st sd false).completed_cycles =
      (if (st.positions.filter (fun p => p.side == sd)).isEmpty then
        st.completed_cycles
       else st.completed_cycles + 1) ∧
    V2.sidePositions (V2.levelPositions (V2.onExitFilled st sd false)) sd = [] ∧
    (∀ price size t meta,
      (V2.onOrderFilled st sd price size t meta).completed_cycles =
        st.completed_cycles) := by
  refine ⟨?_, ?_, ?_, ?_⟩
  · simp [V2.onExitFilled]
  · by_cases h : (st.positions.filter (fun p => p.side == sd)).isEmpty <;>
      simp [V2.onExitFilled, h]
  · by_cases h : (st.positions.filter (fun p => p.side == sd)).isEmpty <;>
      simp [V2.onExitFilled, h, V2.sidePositions, V2.levelPositions,
        List.filter_filter] <;>
      · intro p hp h1 h2
        simp_all
  · intro price size t meta
    simp [V2.onOrderFilled]

/-- C9 counterexample: starting from an empty book, one applied update
with bids `[(0.5, 10)]` and asks `[(0.5, 5)]` leaves the price 0.5
resting on both sides of the book — the code enforces no cross-side
exclusion, refuting the claimed invariant that no price appears on the
bid side and the ask side simultaneously. -/
theorem C9_counterexample :
    Tracker.lookupLevel (Tracker.OrderBook.update {} [(1/2, 10)] [(1/2, 5)]).bids (1/2)
        = some 10 ∧
    Tracker.lookupLevel (Tracker.OrderBook.update {} [(1/2, 10)] [(1/2, 5)]).asks (1/2)
        = some 5 := by
  constructor <;>
    norm_num [Tracker.OrderBook.update, Tracker.updateSide, Tracker.applyLevelUpdate,
      Tracker.setLevel, Tracker.delLevel, Tracker.lookupLevel, List.find?]

theorem containsLevel_cons (a : ℚ × ℚ) (l : List (ℚ × ℚ)) (p : ℚ) :
    Tracker.containsLevel (a :: l) p = ((a.1 == p) || Tracker.containsLevel l p) := by
  simp [Tracker.containsLevel, List.any_cons]

theorem setLevel_map_absent (l : List (ℚ × ℚ)) (p s : ℚ)
    (h : Tracker.containsLevel l p = false) :
    List.map (fun x => if (x.1 == p) = true then (p, s) else x) l = l := by
  induction l with
  | nil => simp
  | cons b t iht =>
    rw [containsLevel_cons] at h
    rcases Bool.or_eq_false_iff.mp h with ⟨hb, ht⟩
    simp only [List.map_cons, hb, Bool.false_eq_true, ite_false, List.cons.injEq,
      true_and]
    exact iht ht

theorem lookupLevel_append_self (l : List (ℚ × ℚ)) (p s : ℚ)
    (h : Tracker.containsLevel l p = false) :
    Tracker.lookupLevel (l ++ [(p, s)]) p = some s := by
  induction l with
  | nil => simp [Tracker.lookupLevel]
  | cons a t ih =>
    rw [containsLevel_cons] at h
    rcases Bool.or_eq_false_iff.mp h with ⟨ha, ht⟩
    have ha2 : ¬a.1 = p := by simpa using ha
    simpa [Tracker.lookupLevel, ha2] using ih ht

theorem lookupLevel_setLevel_self (m : List (ℚ × ℚ)) (p s : ℚ) :
    Tracker.lookupLevel (Tracker.setLevel m p s) p = some s := by
  unfold Tracker.setLevel
  by_cases h : Tracker.containsLevel m p = true
  · simp only [h, if_pos]
    induction m with
    | nil => simp [Tracker.containsLevel] at h
    | cons a l ih =>
      by_cases ha : a.1 = p
      · simp [Tracker.lookupLevel, ha]
      · have hne : (a.1 == p) = false := by simp [ha]
        have hl : Tracker.containsLevel l p = true := by
          rw [containsLevel_cons, hne] at h
          simpa using h
        simp only [List.map_cons, hne, Bool.false_eq_true, ite_false]
        simpa [Tracker.lookupLevel, ha] using ih hl
  · simp only [h, ite_false]
    exact lookupLevel_append_self m p s (Bool.not_eq_true _ ▸ Bool.of_not_eq_true h)

theorem lookupLevel_append_other (l : List (ℚ × ℚ)) (p s q : ℚ) (h : q ≠ p) :
    Tracker.lookupLevel (l ++ [(p, s)]) q = Tracker.lookupLevel l q := by
  induction l with
  | nil => simp [Tracker.lookupLevel, Ne.symm h]
  | cons a t ih =>
    by_cases haq : a.1 = q
    · simp [Tracker.lookupLevel, haq]
    · simpa [Tracker.lookupLevel, haq] using ih

theorem lookupLevel_setLevel_other (m : List (ℚ × ℚ)) (p s q : ℚ) (h : q ≠ p) :
    Tracker.lookupLevel (Tracker.setLevel m p s) q = Tracker.lookupLevel m q := by
  unfold Tracker.setLevel
  by_cases hc : Tracker.containsLevel m p = true
  · simp only [hc, if_pos]
    induction m with
    | nil => simp
    | cons a l ih =>
      by_cases hl : Tracker.containsLevel l p = true
      · by_cases ha : a.1 = p
        · have hne : (a.1 == p) = true := by simp [ha]
          have haq : ¬a.1 = q := fun hcq => h (hcq ▸ ha ▸ rfl)
          simp only [List.map_cons, hne, if_pos]
          simpa [Tracker.lookupLevel, Ne.symm h, haq] using ih hl
        · have hne : (a.1 == p) = false := by simp [ha]
          by_cases haq : a.1 = q
          · simp [List.map_cons, hne, Tracker.lookupLevel, haq, h]
          · simp only [List.map_cons, hne, Bool.false_eq_true, ite_false]
            simpa [Tracker.lookupLevel, haq] using ih hl
      · have hl2 : Tracker.containsLevel l p = false := by
          simpa using hl
        have ha : a.1 = p := by
          rw [containsLevel_cons, hl2] at hc
          simpa using hc
        have hne : (a.1 == p) = true := by simp [ha]
        have haq : ¬a.1 = q := fun hcq => h (hcq ▸ ha ▸ rfl)
        simp only [List.map_cons, hne, if_pos, setLevel_map_absent l p s hl2]
        simp [Tracker.lookupLevel, Ne.symm h, haq]
  · simp only [hc, ite_false]
    exact lookupLevel_append_other m p s q h

theorem lookupLevel_delLevel_self (m : List (ℚ × ℚ)) (p : ℚ) :
    Tracker.lookupLevel (Tracker.delLevel m p) p = none := by
  unfold Tracker.delLevel
  induction m with
  | nil => simp [Tracker.lookupLevel]
  | cons a l ih =>
    by_cases ha : a.1 = p
    · simpa [ha] using ih
    · have : (a.1 != p) = true := by simp [ha]
      simpa [List.filter_cons, this, Tracker.lookupLevel, ha] using ih

theorem lookupLevel_delLevel_other (m : List (ℚ × ℚ)) (p q : ℚ) (h : q ≠ p) :
    Tracker.lookupLevel (Tracker.delLevel m p) q = Tracker.lookupLevel m q := by
  unfold Tracker.delLevel
  induction m with
  | nil => simp
  | cons a l ih =>
    by_cases ha : a.1 = p
    · have haq : ¬a.1 = q := fun hcq => h (hcq ▸ ha ▸ rfl)
      simpa [List.filter_cons, ha, Tracker.lookupLevel, haq, Ne.symm h] using ih
    · have : (a.1 != p) = true := by simp [ha]
      by_cases haq : a.1 = q
      · simp [List.filter_cons, this, Tracker.lookupLevel, haq, h]
      · simpa [List.filter_cons, this, Tracker.lookupLevel, haq] using ih

theorem delLevel_absent_noop (m : List (ℚ × ℚ)) (p : ℚ)
    (h : Tracker.lookupLevel m p = none) : Tracker.delLevel m p = m := by
  unfold Tracker.delLevel
  induction m with
  | nil => simp
  | cons a l ih =>
    by_cases ha : a.1 = p
    · simp [Tracker.lookupLevel, ha] at h
    · have hne : (a.1 != p) = true := by simp [ha]
      have hl : Tracker.lookupLevel l p = none := by
        simpa [Tracker.lookupLevel, ha] using h
      simp only [List.filter_cons, hne, if_pos, List.cons.injEq, true_and]
      exact ih hl

/-- C9 (amended): each side of the book independently reflects its
updates — a size-0 update removes that price level from its side (and is
a no-op when the level is absent), a nonzero update stores the size, an
update never touches other price levels, and updating one side never
touches the other side; no cross-side exclusion is enforced, so the same
price may rest on both sides. -/
theorem C9_book_update (m : List (ℚ × ℚ)) (p s q : ℚ) (ob : Tracker.OrderBook)
    (bidUpdates askUpdates : List (ℚ × ℚ)) (hq : q ≠ p) :
    Tracker.lookupLevel (Tracker.applyLevelUpdate m (p, s)) p
        = (if s = 0 then none else some s) ∧
    Tracker.lookupLevel (Tracker.applyLevelUpdate m (p, s)) q
        = Tracker.lookupLevel m q ∧
    (Tracker.lookupLevel m p = none → Tracker.applyLevelUpdate m (p, 0) = m) ∧
    (ob.update bidUpdates []).asks = ob.asks ∧
    (ob.update [] askUpdates).bids = ob.bids := by
  refine ⟨?_, ?_, ?_, ?_, ?_⟩
  · by_cases hs : s = 0
    · simp only [Tracker.applyLevelUpdate, hs, if_pos]
      simp [lookupLevel_delLevel_self]
    · simp only [Tracker.applyLevelUpdate, hs, ite_false]
      simp [lookupLevel_setLevel_self, hs]
  · by_cases hs : s = 0
    · simp only [Tracker.applyLevelUpdate, hs, if_pos]
      exact lookupLevel_delLevel_other m p q hq
    · simp only [Tracker.applyLevelUpdate, hs, ite_false]
      exact lookupLevel_setLevel_other m p s q hq
  · intro habs
    simp only [Tracker.applyLevelUpdate, if_pos]
    exact delLevel_absent_noop m p habs
  · simp [Tracker.OrderBook.update, Tracker.updateSide]
  · simp [Tracker.OrderBook.update, Tracker.updateSide]

/-- C9 witness: the amended book-update laws evaluated at a concrete
one-level book. -/
theorem C9_book_update_witness :
    Tracker.lookupLevel (Tracker.applyLevelUpdate [((1:ℚ)/2, 10)] (1/2, 0)) (1/2)
        = (if (0:ℚ) = 0 then none else some 0) ∧
    Tracker.lookupLevel (Tracker.applyLevelUpdate [((1:ℚ)/2, 10)] (1/2, 0)) (3/4)
        = Tracker.lookupLevel [((1:ℚ)/2, 10)] (3/4) ∧
    (Tracker.lookupLevel [((1:ℚ)/2, 10)] (1/2) = none →
      Tracker.applyLevelUpdate [((1:ℚ)/2, 10)] (1/2, 0) = [((1:ℚ)/2, 10)]) ∧
    (Tracker.OrderBook.update {} [((1:ℚ)/2, 10)] []).asks
        = Tracker.OrderBook.asks {} ∧
    (Tracker.OrderBook.update {} [] [((1:ℚ)/2, 10)]).bids
        = Tracker.OrderBook.bids {} :=
  C9_book_update [((1:ℚ)/2, 10)] (1/2) 0 (3/4) {} [((1:ℚ)/2, 10)]
    [((1:ℚ)/2, 10)] (by norm_num)

/-- A PLACE_TP_LIMIT intent as the V2 FSM constructs it, used as the
concrete input for the C5 counterexample: the improved (strictly lower)
target price is 0.59. -/
def c5Signal : ScalpSignal :=
  { action := Action.PLACE_TP_LIMIT, token_id := "N", price := 59/100, size := 10,
    urgency := "MEDIUM",
    metadata := { side := Side.yes, is_high_price_scalp := false,
                  order_type := some "BUY" } }

/-- C5 counterexample: an active TP order `tp-1` exists and the incoming
PLACE_TP_LIMIT intent carries a strictly lower price (0.59, lower than
any possible previously placed price since prices are positive), ample
balance is available and the venue would accept (`some "tp-2"`) — yet
the coordinator issues no cancellation and places no order: the claimed
cancel-and-replace-on-strict-improvement never happens; the branch
short-circuits whenever any active TP order exists. -/
theorem C5_counterexample :
    Server.executeTpLimit ["tp-1"] 1000 (some "tp-2") c5Signal
      = { activeExitOrders := ["tp-1"], attempted := [], cancelled := [] } := by
  simp [Server.executeTpLimit, c5Signal]

/-- C5 (amended): when a PLACE_TP_LIMIT intent reaches the coordinator of
btc_web_server.py, no existing order is ever cancelled; if any active TP
order exists for the market the intent is skipped and the state is
unchanged; if none exists and the intent is a BUY whose cost exceeds the
balance, an `insufficient-balance` sentinel is recorded and no order is
placed; otherwise exactly one post-only order is attempted at the
intent's price/size/token, and the order id (or a `failed-order`
sentinel) is appended to the active set. -/
theorem C5_tp_no_reprice (activeOrders : List String) (balance : ℚ)
    (venueResp : Option String) (sig : ScalpSignal)
    (hbuy : sig.metadata.order_type = some "BUY") :
    (Server.executeTpLimit activeOrders balance venueResp sig).cancelled = [] ∧
    (activeOrders ≠ [] →
      Server.executeTpLimit activeOrders balance venueResp sig
        = { activeExitOrders := activeOrders, attempted := [], cancelled := [] }) ∧
    (activeOrders = [] → balance < sig.size * sig.price →
      Server.executeTpLimit activeOrders balance venueResp sig
        = { activeExitOrders := activeOrders ++ ["insufficient-balance"],
            attempted := [], cancelled := [] }) ∧
    (activeOrders = [] → sig.size * sig.price ≤ balance →
      (Server.executeTpLimit activeOrders balance venueResp sig).attempted
        = [{ token_id := sig.token_id, price := sig.price, size := sig.size,
             side := OrderSide.BUY, post_only := true }] ∧
      (Server.executeTpLimit activeOrders balance venueResp sig).activeExitOrders
        = activeOrders ++ [venueResp.getD "failed-order"]) := by
  have hside : (if sig.metadata.order_type == some "SELL" then OrderSide.SELL
      else OrderSide.BUY) = OrderSide.BUY := by
    simp [hbuy]
  refine ⟨?_, ?_, ?_, ?_⟩
  · unfold Server.executeTpLimit
    rw [hside]
    by_cases h1 : activeOrders.isEmpty
    · simp only [h1, Bool.not_true, Bool.false_eq_true, ite_false]
      by_cases h2 : balance < sig.size * sig.price
      · simp [h2]
      · cases venueResp <;> simp [h2]
    · simp [h1]
  · intro hne
    have h1 : activeOrders.isEmpty = false := by
      simpa [List.isEmpty_iff] using hne
    unfold Server.executeTpLimit
    rw [hside]
    simp [h1]
  · intro he hb
    unfold Server.executeTpLimit
    rw [hside]
    simp [he, hb]
  · intro he hb
    have hb2 : ¬balance < sig.size * sig.price := not_lt.mpr hb
    unfold Server.executeTpLimit
    rw [hside]
    cases venueResp <;> simp [he, hb2]

/-- C5 witness: the amended no-reprice behaviour evaluated at concrete
inputs (the signal of the counterexample, an empty active set, balance
1000, and an accepting venue). -/
theorem C5_tp_no_reprice_witness :
    (Server.executeTpLimit [] 1000 (some "tp-2") c5Signal).cancelled = [] ∧
    (([] : List String) ≠ [] →
      Server.executeTpLimit [] 1000 (some "tp-2") c5Signal
        = { activeExitOrders := [], attempted := [], cancelled := [] }) ∧
    (([] : List String) = [] → (1000:ℚ) < c5Signal.size * c5Signal.price →
      Server.executeTpLimit [] 1000 (some "tp-2") c5Signal
        = { activeExitOrders := [] ++ ["insufficient-balance"],
            attempted := [], cancelled := [] }) ∧
    (([] : List String) = [] → c5Signal.size * c5Signal.price ≤ (1000:ℚ) →
      (Server.executeTpLimit [] 1000 (some "tp-2") c5Signal).attempted
        = [{ token_id := c5Signal.token_id, price := c5Signal.price,
             size := c5Signal.size, side := OrderSide.BUY, post_only := true }] ∧
      (Server.executeTpLimit [] 1000 (some "tp-2") c5Signal).activeExitOrders
        = [] ++ [(some "tp-2").getD "failed-order"]) :=
  C5_tp_no_reprice [] 1000 (some "tp-2") c5Signal (by simp [c5Signal])

/-- C7: for every EXIT intent carrying fallback metadata, the
orchestrator first checks the collateral balance: with
balance ≥ size·price it attempts the unwind as a marketable BUY of the
intent's (opposite) token at the intent's price; with insufficient
balance it instead SELLs the held token at the metadata fallback price;
and when the unwind BUY fails it retries as that SELL. -/
theorem C7_unwind_vs_sell (sig : ScalpSignal) (pos : Server.BotPositions)
    (strat : V1.State) (env : Server.ExitEnv) (ft : String) (fp : ℚ)
    (ha : sig.action = Action.EXIT)
    (hft : sig.metadata.fallback_token = some ft) (hft2 : ft ≠ "")
    (hfp : sig.metadata.fallback_sell_price = some fp) (hfp2 : fp ≠ 0) :
    (Server.executeExit sig pos strat env).attempted =
      (if env.balance < sig.size * sig.price then
        [{ token_id := ft, price := fp, size := sig.size,
           side := OrderSide.SELL, post_only := false }]
      else if env.firstOrderOk then
        [{ token_id := sig.token_id, price := sig.price, size := sig.size,
           side := OrderSide.BUY, post_only := false }]
      else
        [{ token_id := sig.token_id, price := sig.price, size := sig.size,
           side := OrderSide.BUY, post_only := false },
         { token_id := ft, price := fp, size := sig.size,
           side := OrderSide.SELL, post_only := false }]) := by
  unfold Server.executeExit
  rcases env with ⟨bal, fok, bok⟩
  by_cases hb : bal < sig.size * sig.price <;>
    cases fok <;> cases bok <;>
      by_cases hy : 0 < pos.position_yes <;>
        simp [ha, hb, hy, hft, hfp, hft2, hfp2]

/-- C7 witness: the unwind-vs-SELL choice evaluated on a concrete EXIT
intent (unwind BUY of NO at 0.58 for 10 shares, SELL fallback of the
held YES token at 0.41) with sufficient balance and a failing first
order. -/
theorem C7_unwind_vs_sell_witness :
    (Server.executeExit
      { action := Action.EXIT, token_id := "N", price := 58/100, size := 10,
        urgency := "CRITICAL",
        metadata := { side := Side.yes, fallback_sell_price := some (41/100),
                      fallback_token := some "Y" } }
      { position_yes := 10, avg_price_yes := 34/100 } {}
      { balance := 100, firstOrderOk := false, fallbackOrderOk := true }).attempted =
      (if (100:ℚ) < 10 * (58/100) then
        [{ token_id := "Y", price := 41/100, size := 10,
           side := OrderSide.SELL, post_only := false }]
      else if false then
        [{ token_id := "N", price := 58/100, size := 10,
           side := OrderSide.BUY, post_only := false }]
      else
        [{ token_id := "N", price := 58/100, size := 10,
           side := OrderSide.BUY, post_only := false },
         { token_id := "Y", price := 41/100, size := 10,
           side := OrderSide.SELL, post_only := false }]) :=
  C7_unwind_vs_sell _ _ _ _ "Y" (41/100) rfl rfl (by simp) rfl (by norm_num)

/-- C10: if the order placement for an EXIT intent fails — the first
order fails and any SELL fallback also fails — the position ledger is
unchanged: `on_exit_filled` is not invoked, the strategy's positions and
trade counter are untouched, the context positions are untouched, and
the trade statistics are not updated (the evaluation being a pure
function of that unchanged state, the same exit condition is
re-evaluated on a later tick). -/
theorem C10_exit_atomic_on_failure (sig : ScalpSignal)
    (pos : Server.BotPositions) (strat : V1.State) (env : Server.ExitEnv)
    (ha : sig.action = Action.EXIT)
    (h1 : env.firstOrderOk = false) (h2 : env.fallbackOrderOk = false) :
    (Server.executeExit sig pos strat env).success = false ∧
    (Server.executeExit sig pos strat env).exitFilledSide = none ∧
    (Server.executeExit sig pos strat env).stratAfter.positions
      = strat.positions ∧
    (Server.executeExit sig pos strat env).stratAfter.trade_count
      = strat.trade_count ∧
    (Server.executeExit sig pos strat env).posAfter = pos ∧
    (Server.executeExit sig pos strat env).totalTradesDelta = 0 ∧
    (Server.executeExit sig pos strat env).statsUpdated = false := by
  unfold Server.executeExit
  rcases env with ⟨bal, fok, bok⟩
  simp only at h1 h2
  subst h1
  subst h2
  by_cases hb : bal < sig.size * sig.price <;>
    by_cases hy : 0 < pos.position_yes <;>
      rcases hft : sig.metadata.fallback_token with _ | ft <;>
        rcases hfp : sig.metadata.fallback_sell_price with _ | fp <;>
          simp [ha, hb, hy, hft, hfp] <;>
            split <;> simp

/-- C10 witness: the failure-atomicity of EXIT evaluated on a concrete
EXIT intent whose unwind BUY and SELL fallback both fail. -/
theorem C10_exit_atomic_on_failure_witness :
    (Server.executeExit
      { action := Action.EXIT, token_id := "N", price := 58/100, size := 10,
        urgency := "CRITICAL",
        metadata := { side := Side.yes, fallback_sell_price := some (41/100),
                      fallback_token := some "Y" } }
      { position_yes := 10, avg_price_yes := 34/100 } {}
      { balance := 100, firstOrderOk := false, fallbackOrderOk := false }).success
        = false ∧
    (Server.executeExit
      { action := Action.EXIT, token_id := "N", price := 58/100, size := 10,
        urgency := "CRITICAL",
        metadata := { side := Side.yes, fallback_sell_price := some (41/100),
                      fallback_token := some "Y" } }
      { position_yes := 10, avg_price_yes := 34/100 } {}
      { balance := 100, firstOrderOk := false, fallbackOrderOk := false }).exitFilledSide
        = none ∧
    (Server.executeExit
      { action := Action.EXIT, token_id := "N", price := 58/100, size := 10,
        urgency := "CRITICAL",
        metadata := { side := Side.yes, fallback_sell_price := some (41/100),
                      fallback_token := some "Y" } }
      { position_yes := 10, avg_price_yes := 34/100 } {}
      { balance := 100, firstOrderOk := false, fallbackOrderOk := false }).stratAfter.positions
        = V1.State.positions {} ∧
    (Server.executeExit
      { action := Action.EXIT, token_id := "N", price := 58/100, size := 10,
        urgency := "CRITICAL",
        metadata := { side := Side.yes, fallback_sell_price := some (41/100),
                      fallback_token := some "Y" } }
      { position_yes := 10, avg_price_yes := 34/100 } {}
      { balance := 100, firstOrderOk := false, fallbackOrderOk := false }).stratAfter.trade_count
        = V1.State.trade_count {} ∧
    (Server.executeExit
      { action := Action.EXIT, token_id := "N", price := 58/100, size := 10,
        urgency := "CRITICAL",
        metadata := { side := Side.yes, fallback_sell_price := some (41/100),
                      fallback_token := some "Y" } }
      { position_yes := 10, avg_price_yes := 34/100 } {}
      { balance := 100, firstOrderOk := false, fallbackOrderOk := false }).posAfter
        = { position_yes := 10, avg_price_yes := 34/100 } ∧
    (Server.executeExit
      { action := Action.EXIT, token_id := "N", price := 58/100, size := 10,
        urgency := "CRITICAL",
        metadata := { side := Side.yes, fallback_sell_price := some (41/100),
                      fallback_token := some "Y" } }
      { position_yes := 10, avg_price_yes := 34/100 } {}
      { balance := 100, firstOrderOk := false, fallbackOrderOk := false }).totalTradesDelta
        = 0 ∧
    (Server.executeExit
      { action := Action.EXIT, token_id := "N", price := 58/100, size := 10,
        urgency := "CRITICAL",
        metadata := { side := Side.yes, fallback_sell_price := some (41/100),
                      fallback_token := some "Y" } }
      { position_yes := 10, avg_price_yes := 34/100 } {}
      { balance := 100, firstOrderOk := false, fallbackOrderOk := false }).statsUpdated
        = false :=
  C10_exit_atomic_on_failure _ _ _ _ rfl rfl rfl

/-- C4 counterexample data: ten YES LEVEL shares filled at 0.34 (state),
with the NO ask at 0.62 (context); the per-position target-exit formula
gives max(0.01, 1 − 1.05·0.34) = 0.643. -/
def c4State : V2.State :=
  { positions := [{ side := Side.yes, entry_price := 34/100, size := 10,
                    entry_time := 0, is_high_scalp := false,
                    profit_target := 5/100 }] }

def c4Ctx : MarketContext :=
  { end_time := 1000, yes_price := 3/10, no_price := 62/100,
    token_yes := "Y", token_no := "N" }

/-- C4: the claim states the emitted PLACE_TP_LIMIT price equals
`max(0.01, 1 − (1+t)·e)`. Counterexample: with a YES LEVEL stack at
weighted-average entry e = 0.34, target t = 0.05 and the NO ask at 0.62,
the FSM emits PLACE_TP_LIMIT at the current NO ask 0.62, while the
formula gives 0.643 — the formula is only the trigger threshold, not the
emitted price. -/
theorem C4_counterexample :
    (V2.checkLevelExit c4State c4Ctx).map (fun s => s.price) = some (62/100) ∧
    max (1/100) (1 - (1 + (5:ℚ)/100) * (34/100)) = 643/1000 ∧
    ((62:ℚ)/100) ≠ 643/1000 := by
  refine ⟨?_, by norm_num, by norm_num⟩
  norm_num [V2.checkLevelExit, V2.levelPositions, V2.sidePositions, V2.totalSize,
    V2.avgEntry, V2.level_profit_target, c4State, c4Ctx]

/-- C4 (amended): a PLACE_TP_LIMIT intent is emitted at the current
opposite-side ask, and only when that ask is at or below the unclamped
target `1 − (1+t)·e` for the side's weighted-average entry e — so the
emitted price is bounded by the target-exit law rather than equal to it;
the clamped per-position formula `max(0.01, 1 − (1+t)·e)` is what V1's
`get_target_exit_price` computes. -/
theorem C4_tp_price (st : V2.State) (ctx : MarketContext) (sig : ScalpSignal)
    (h : V2.checkLevelExit st ctx = some sig) :
    sig.action = Action.PLACE_TP_LIMIT ∧
    ((sig.metadata.side = Side.yes ∧ sig.price = ctx.no_price ∧
      sig.price ≤ 1 - (1 + V2.level_profit_target) *
        V2.avgEntry (V2.sidePositions (V2.levelPositions st) Side.yes)) ∨
     (sig.metadata.side = Side.no ∧ sig.price = ctx.yes_price ∧
      sig.price ≤ 1 - (1 + V2.level_profit_target) *
        V2.avgEntry (V2.sidePositions (V2.levelPositions st) Side.no))) ∧
    (∀ p : V1.LevelPosition, V1.getTargetExitPrice p
      = max (1/100) (1 - (1 + p.profit_target) * p.entry_price)) := by
  refine ⟨?_, ?_, fun p => rfl⟩ <;>
  · simp only [V2.checkLevelExit] at h
    split at h
    · exact absurd h (by simp)
    · split at h
      · rename_i s hs
        split at hs
        · split at hs
          · simp only [Option.some.injEq] at hs h
            subst hs
            subst h
            simp_all
          · exact absurd hs (by simp)
        · exact absurd hs (by simp)
      · split at h
        · split at h
          · simp only [Option.some.injEq] at h
            subst h
            simp_all
          · exact absurd h (by simp)
        · exact absurd h (by simp)

/-- C4 witness: the amended target-exit statement evaluated at the
concrete counterexample state (the emitted price is the NO ask 0.62 ≤
0.643). -/
theorem C4_tp_price_witness :
    (V2.checkLevelExit c4State c4Ctx
      = some { action := Action.PLACE_TP_LIMIT, token_id := "N",
               price := 62/100, size := 10, urgency := "MEDIUM",
               metadata := { side := Side.yes, is_high_price_scalp := false,
                             order_type := some "BUY" } }) ∧
    ({ action := Action.PLACE_TP_LIMIT, token_id := "N",
       price := (62:ℚ)/100, size := 10, urgency := "MEDIUM",
       metadata := { side := Side.yes, is_high_price_scalp := false,
                     order_type := some "BUY" } } : ScalpSignal).action
        = Action.PLACE_TP_LIMIT := by
  have h : V2.checkLevelExit c4State c4Ctx
      = some { action := Action.PLACE_TP_LIMIT, token_id := "N",
               price := 62/100, size := 10, urgency := "MEDIUM",
               metadata := { side := Side.yes, is_high_price_scalp := false,
                             order_type := some "BUY" } } := by
    norm_num [V2.checkLevelExit, V2.levelPositions, V2.sidePositions, V2.totalSize,
      V2.avgEntry, V2.level_profit_target, c4State, c4Ctx]
  exact ⟨h, (C4_tp_price c4State c4Ctx _ h).1⟩

theorem totalSize_nonneg (ps : List V2.LevelPosition)
    (h : ∀ p ∈ ps, 0 < p.size) : 0 ≤ V2.totalSize ps := by
  induction ps with
  | nil => simp [V2.totalSize]
  | cons a t ih =>
    have ha : 0 < a.size := h a (List.mem_cons_self a t)
    have ht : 0 ≤ V2.totalSize t := ih (fun p hp => h p (List.mem_cons_of_mem a hp))
    simp only [V2.totalSize, List.map_cons, List.sum_cons]
    have := le_of_lt ha
    simpa [V2.totalSize] using add_nonneg this ht

theorem totalSize_pos (ps : List V2.LevelPosition)
    (h : ∀ p ∈ ps, 0 < p.size) (hne : ps ≠ []) : 0 < V2.totalSize ps := by
  cases ps with
  | nil => exact absurd rfl hne
  | cons a t =>
    have ha : 0 < a.size := h a (List.mem_cons_self a t)
    have ht : 0 ≤ V2.totalSize t :=
      totalSize_nonneg t (fun p hp => h p (List.mem_cons_of_mem a hp))
    simp only [V2.totalSize, List.map_cons, List.sum_cons]
    simpa [V2.totalSize] using add_pos_of_pos_of_nonneg ha ht

theorem mem_side_of_mem_level (st : V2.State) (p : V2.LevelPosition)
    (hp : p ∈ V2.levelPositions st) :
    p ∈ V2.sidePositions (V2.levelPositions st) Side.yes ∨
    p ∈ V2.sidePositions (V2.levelPositions st) Side.no := by
  cases hside : p.side with
  | yes =>
    left
    simp [V2.sidePositions, List.mem_filter, hp, hside]
  | no =>
    right
    simp [V2.sidePositions, List.mem_filter, hp, hside]

theorem sidePositions_ne_nil (st : V2.State)
    (hne : V2.levelPositions st ≠ []) :
    V2.sidePositions (V2.levelPositions st) Side.yes ≠ [] ∨
    V2.sidePositions (V2.levelPositions st) Side.no ≠ [] := by
  rcases List.exists_mem_of_ne_nil _ hne with ⟨p, hp⟩
  rcases mem_side_of_mem_level st p hp with h | h
  · exact Or.inl (List.ne_nil_of_mem h)
  · exact Or.inr (List.ne_nil_of_mem h)

theorem mem_of_mem_side (st : V2.State) (sd : Side) (p : V2.LevelPosition)
    (hp : p ∈ V2.sidePositions (V2.levelPositions st) sd) :
    p ∈ st.positions := by
  simp only [V2.sidePositions, V2.levelPositions, List.mem_filter] at hp
  exact hp.1.1

theorem checkForceUnwind_action (st : V2.State) (ctx : MarketContext)
    (sig : ScalpSignal) (h : V2.checkForceUnwind st ctx = some sig) :
    sig.action = Action.EXIT := by
  simp only [V2.checkForceUnwind] at h
  split at h
  · exact absurd h (by simp)
  · split at h
    · simp only [Option.some.injEq] at h
      subst h
      rfl
    · split at h
      · simp only [Option.some.injEq] at h
        subst h
        rfl
      · exact absurd h (by simp)

theorem checkHighScalpExit_action (st : V2.State) (ctx : MarketContext)
    (sig : ScalpSignal) (h : V2.checkHighScalpExit st ctx = some sig) :
    sig.action = Action.EXIT := by
  simp only [V2.checkHighScalpExit] at h
  split at h
  · exact absurd h (by simp)
  · split at h
    · rename_i s hs
      split at hs
      · split at hs
        · simp only [Option.some.injEq] at hs h
          subst hs
          subst h
          rfl
        · exact absurd hs (by simp)
      · exact absurd hs (by simp)
    · split at h
      · split at h
        · simp only [Option.some.injEq] at h
          subst h
          rfl
        · exact absurd h (by simp)
      · exact absurd h (by simp)

theorem checkHighScalpEntry_high (st : V2.State) (ctx : MarketContext)
    (now : ℚ) (sig : ScalpSignal)
    (h : V2.checkHighScalpEntry st ctx now = some sig) :
    sig.metadata.is_high_price_scalp = true := by
  simp only [V2.checkHighScalpEntry] at h
  split at h
  · exact absurd h (by simp)
  · split at h
    · exact absurd h (by simp)
    · split at h
      · exact absurd h (by simp)
      · split at h
        · simp only [Option.some.injEq] at h
          subst h
          rfl
        · split at h
          · simp only [Option.some.injEq] at h
            subst h
            rfl
          · exact absurd h (by simp)

/-- C2: with less than 5 minutes remaining the FSM never emits a LEVEL
entry intent (any ENTER it emits is HIGH_SCALP-classified), and whenever
LEVEL positions exist the emitted intent is the force-unwind EXIT with
urgency CRITICAL for the side with the larger aggregate LEVEL size (ties
broken YES-first): a marketable BUY of the opposite token at the
opposite token's current price, carrying the held side's token and
current price as SELL-fallback metadata. -/
theorem C2_forced_unwind_gate (st : V2.State) (ctx : MarketContext) (now : ℚ)
    (hlt : ctx.end_time - now < V2.force_unwind_time)
    (hsz : ∀ p ∈ st.positions, 0 < p.size) :
    (∀ sig, V2.evaluateMarket st ctx now = some sig →
      (sig.action = Action.ENTER_YES ∨ sig.action = Action.ENTER_NO) →
      sig.metadata.is_high_price_scalp = true) ∧
    (V2.levelPositions st ≠ [] →
      V2.evaluateMarket st ctx now = some (
        if V2.totalSize (V2.sidePositions (V2.levelPositions st) Side.no)
            ≤ V2.totalSize (V2.sidePositions (V2.levelPositions st) Side.yes) then
          { action := Action.EXIT, token_id := ctx.token_no,
            price := ctx.no_price,
            size := V2.totalSize (V2.sidePositions (V2.levelPositions st) Side.yes),
            urgency := "CRITICAL",
            metadata := { side := Side.yes, is_high_price_scalp := false,
                          fallback_sell_price := some ctx.yes_price,
                          fallback_token := some ctx.token_yes } }
        else
          { action := Action.EXIT, token_id := ctx.token_yes,
            price := ctx.yes_price,
            size := V2.totalSize (V2.sidePositions (V2.levelPositions st) Side.no),
            urgency := "CRITICAL",
            metadata := { side := Side.no, is_high_price_scalp := false,
                          fallback_sell_price := some ctx.no_price,
                          fallback_token := some ctx.token_no } })) := by
  constructor
  · intro sig hev hent
    simp only [V2.evaluateMarket, hlt, if_pos] at hev
    split at hev
    · rename_i s hs
      have := checkForceUnwind_action st ctx s hs
      simp only [Option.some.injEq] at hev
      subst hev
      rcases hent with h | h <;> simp [this] at h
    · split at hev
      · rename_i s hs
        have := checkHighScalpExit_action st ctx s hs
        simp only [Option.some.injEq] at hev
        subst hev
        rcases hent with h | h <;> simp [this] at h
      · exact checkHighScalpEntry_high st ctx now sig hev
  · intro hne
    have hszy : ∀ p ∈ V2.sidePositions (V2.levelPositions st) Side.yes, 0 < p.size :=
      fun p hp => hsz p (mem_of_mem_side st Side.yes p hp)
    have hszn : ∀ p ∈ V2.sidePositions (V2.levelPositions st) Side.no, 0 < p.size :=
      fun p hp => hsz p (mem_of_mem_side st Side.no p hp)
    simp only [V2.evaluateMarket, hlt, if_pos]
    by_cases hcmp : V2.totalSize (V2.sidePositions (V2.levelPositions st) Side.no)
        ≤ V2.totalSize (V2.sidePositions (V2.levelPositions st) Side.yes)
    · have hyne : V2.sidePositions (V2.levelPositions st) Side.yes ≠ [] := by
        intro hempty
        rcases sidePositions_ne_nil st hne with h | h
        · exact h hempty
        · have hpos := totalSize_pos _ hszn h
          rw [hempty] at hcmp
          simp [V2.totalSize] at hcmp
          exact absurd (lt_of_lt_of_le hpos hcmp) (lt_irrefl 0)
      have hcond : (!(V2.sidePositions (V2.levelPositions st) Side.yes).isEmpty &&
          ((V2.sidePositions (V2.levelPositions st) Side.no).isEmpty ||
            V2.totalSize (V2.sidePositions (V2.levelPositions st) Side.no)
              ≤ V2.totalSize (V2.sidePositions (V2.levelPositions st) Side.yes))) = true := by
        simp [List.isEmpty_iff, hyne, hcmp]
      simp only [V2.checkForceUnwind]
      rw [if_neg (by simpa [List.isEmpty_iff] using hne), if_pos hcond,
        if_pos hcmp]
    · have hnne : V2.sidePositions (V2.levelPositions st) Side.no ≠ [] := by
        intro hempty
        apply hcmp
        rw [hempty]
        simp only [V2.totalSize, List.map_nil, List.sum_nil]
        exact totalSize_nonneg _ hszy
      have hcond : (!(V2.sidePositions (V2.levelPositions st) Side.yes).isEmpty &&
          ((V2.sidePositions (V2.levelPositions st) Side.no).isEmpty ||
            V2.totalSize (V2.sidePositions (V2.levelPositions st) Side.no)
              ≤ V2.totalSize (V2.sidePositions (V2.levelPositions st) Side.yes))) = false := by
        simp only [Bool.and_eq_false_iff]
        by_cases hy : (V2.sidePositions (V2.levelPositions st) Side.yes).isEmpty
        · left
          simp [hy]
        · right
          simp only [Bool.or_eq_false_iff]
          constructor
          · simpa [List.isEmpty_iff] using hnne
          · simpa using hcmp
      simp only [V2.checkForceUnwind]
      rw [if_neg (by simpa [List.isEmpty_iff] using hne), if_neg (by simp [hcond]),
        if_pos (by simpa [List.isEmpty_iff] using hnne), if_neg hcmp]

/-- C2 witness: the forced-unwind gate evaluated at a concrete state
holding ten YES LEVEL shares at 0.34 with 299 seconds remaining. -/
theorem C2_forced_unwind_gate_witness :
    ((∀ sig, V2.evaluateMarket c4State
        { end_time := 299, yes_price := 41/100, no_price := 58/100,
          token_yes := "Y", token_no := "N" } 0 = some sig →
      (sig.action = Action.ENTER_YES ∨ sig.action = Action.ENTER_NO) →
      sig.metadata.is_high_price_scalp = true) ∧
    (V2.levelPositions c4State ≠ [] →
      V2.evaluateMarket c4State
        { end_time := 299, yes_price := 41/100, no_price := 58/100,
          token_yes := "Y", token_no := "N" } 0 = some (
        if V2.totalSize (V2.sidePositions (V2.levelPositions c4State) Side.no)
            ≤ V2.totalSize (V2.sidePositions (V2.levelPositions c4State) Side.yes) then
          { action := Action.EXIT, token_id := "N", price := 58/100,
            size := V2.totalSize (V2.sidePositions (V2.levelPositions c4State) Side.yes),
            urgency := "CRITICAL",
            metadata := { side := Side.yes, is_high_price_scalp := false,
                          fallback_sell_price := some (41/100),
                          fallback_token := some "Y" } }
        else
          { action := Action.EXIT, token_id := "Y", price := 41/100,
            size := V2.totalSize (V2.sidePositions (V2.levelPositions c4State) Side.no),
            urgency := "CRITICAL",
            metadata := { side := Side.no, is_high_price_scalp := false,
                          fallback_sell_price := some (58/100),
                          fallback_token := some "N" } }))) :=
  C2_forced_unwind_gate c4State
    { end_time := 299, yes_price := 41/100, no_price := 58/100,
      token_yes := "Y", token_no := "N" } 0
    (by norm_num [V2.force_unwind_time])
    (by
      intro p hp
      simp only [c4State, List.mem_singleton] at hp
      subst hp
      norm_num)

theorem findEntryLevel_some (st : V2.State) (price : ℚ) (blocked : Bool)
    (ls : List ℚ) (L : ℚ)
    (h : V2.findEntryLevel st price blocked ls = some L) :
    L ∈ ls ∧ price < L ∧ V2.hasPositionAtLevel st L = false ∧
      blocked = false := by
  induction ls with
  | nil => simp [V2.findEntryLevel] at h
  | cons a rest ih =>
    simp only [V2.findEntryLevel] at h
    split at h
    · rename_i hlt
      split at h
      · rcases ih h with ⟨h1, h2, h3, h4⟩
        exact ⟨List.mem_cons_of_mem a h1, h2, h3, h4⟩
      · rename_i hpos
        split at h
        · rcases ih h with ⟨h1, h2, h3, h4⟩
          exact ⟨List.mem_cons_of_mem a h1, h2, h3, h4⟩
        · rename_i hblk
          simp only [Option.some.injEq] at h
          subst h
          exact ⟨List.mem_cons_self _ _, hlt,
            Bool.not_eq_true _ ▸ Bool.of_not_eq_true hpos,
            Bool.not_eq_true _ ▸ Bool.of_not_eq_true hblk⟩
    · rename_i hlt
      rcases ih h with ⟨h1, h2, h3, h4⟩
      exact ⟨List.mem_cons_of_mem a h1, h2, h3, h4⟩

theorem findEntryLevel_first (st : V2.State) (price : ℚ) (blocked : Bool)
    (ls : List ℚ) (L : ℚ) (hsorted : ls.Pairwise (fun a b => b < a))
    (h : V2.findEntryLevel st price blocked ls = some L) :
    ∀ L2 ∈ ls, L < L2 →
      ¬(price < L2 ∧ V2.hasPositionAtLevel st L2 = false) := by
  induction ls with
  | nil => simp [V2.findEntryLevel] at h
  | cons a rest ih =>
    rcases List.pairwise_cons.mp hsorted with ⟨ha, hrest⟩
    simp only [V2.findEntryLevel] at h
    intro L2 hL2 hgt
    rcases List.mem_cons.mp hL2 with hL2a | hL2r
    · subst hL2a
      split at h
      · rename_i hlt
        split at h
        · rename_i hpos
          intro hc
          rw [hc.2] at hpos
          simp at hpos
        · split at h
          · rename_i hblktrue
            rcases findEntryLevel_some st price blocked rest L h
              with ⟨_, _, _, hbf⟩
            rw [hbf] at hblktrue
            simp at hblktrue
          · simp only [Option.some.injEq] at h
            subst h
            exact absurd hgt (lt_irrefl L2)
      · rename_i hlt
        intro hc
        exact hlt hc.1
    · split at h
      · split at h
        · exact ih hrest h L2 hL2r hgt
        · split at h
          · exact ih hrest h L2 hL2r hgt
          · simp only [Option.some.injEq] at h
            subst h
            exact absurd hgt (not_lt.mpr (le_of_lt (ha L2 hL2r)))
      · exact ih hrest h L2 hL2r hgt

theorem entry_levels_sorted : V2.entry_levels.Pairwise (fun a b => b < a) := by
  simp only [V2.entry_levels]
  refine List.Pairwise.cons ?_
    (List.Pairwise.cons ?_ (List.Pairwise.cons ?_ List.Pairwise.nil))
  · intro b hb
    rcases List.mem_cons.mp hb with hb | hb
    · rw [hb]
      norm_num
    · rcases List.mem_cons.mp hb with hb | hb
      · rw [hb]
        norm_num
      · simp at hb
  · intro b hb
    rcases List.mem_cons.mp hb with hb | hb
    · rw [hb]
      norm_num
    · simp at hb
  · intro b hb
    simp at hb

/-- C6 counterexample context: YES ask 0.10, below all three levels, on
an empty position book with ample time. -/
def c6Ctx : MarketContext :=
  { end_time := 1000, yes_price := 1/10, no_price := 9/10,
    token_yes := "Y", token_no := "N" }

/-- C6: the claim states levels are considered lowest-first, the lowest
triggered unentered level is chosen, and the emitted price equals the
level itself. Counterexample: with YES ask 0.10 (below every level) and
no positions, the V2 FSM emits ENTER_YES for level 0.34 — the HIGHEST
level — at price 0.10, although the lower level 0.14 is also triggered
and unentered (and 0.10 ≠ 0.34). -/
theorem C6_counterexample :
    (V2.checkLevelEntry {} c6Ctx 0).map
        (fun s => (s.action, s.price, s.metadata.level))
      = some (Action.ENTER_YES, 1/10, some (34/100)) ∧
    (1:ℚ)/10 < 14/100 ∧ (14:ℚ)/100 ∈ V2.entry_levels ∧
    V2.hasPositionAtLevel {} (14/100) = false ∧
    (14:ℚ)/100 < 34/100 ∧ (1:ℚ)/10 ≠ 34/100 := by
  refine ⟨?_, by norm_num, by simp [V2.entry_levels], rfl, by norm_num,
    by norm_num⟩
  norm_num [V2.checkLevelEntry, V2.findEntryLevel, V2.entry_levels,
    V2.levelPositions, V2.sidePositions, V2.hasPositionAtLevel,
    V2.min_time_for_level_entry, V2.max_completed_cycles, c6Ctx]

/-- C6 (amended): LEVEL entry selection considers the levels from
highest to lowest; an ENTER_LEVEL intent is emitted for a side only if
that side's price is below the chosen level, no existing LEVEL position
was opened within 0.01 of that level, and the opposite side holds no
LEVEL positions; the emitted intent's price is the side's current price
(not the level, which travels in the metadata); and when several levels'
triggers are satisfied the HIGHEST unentered level is the one chosen. -/
theorem C6_level_entry_selection (st : V2.State) (ctx : MarketContext)
    (now : ℚ) (sig : ScalpSignal)
    (h : V2.checkLevelEntry st ctx now = some sig) :
    sig.metadata.is_high_price_scalp = false ∧ sig.size = V2.level_size ∧
    ∃ L, sig.metadata.level = some L ∧ L ∈ V2.entry_levels ∧
      ((sig.action = Action.ENTER_YES ∧ sig.metadata.side = Side.yes ∧
        sig.price = ctx.yes_price ∧ sig.token_id = ctx.token_yes ∧
        ctx.yes_price < L ∧ V2.hasPositionAtLevel st L = false ∧
        V2.sidePositions (V2.levelPositions st) Side.no = [] ∧
        (∀ L2 ∈ V2.entry_levels, L < L2 →
          ¬(ctx.yes_price < L2 ∧ V2.hasPositionAtLevel st L2 = false))) ∨
       (sig.action = Action.ENTER_NO ∧ sig.metadata.side = Side.no ∧
        sig.price = ctx.no_price ∧ sig.token_id = ctx.token_no ∧
        ctx.no_price < L ∧ V2.hasPositionAtLevel st L = false ∧
        V2.sidePositions (V2.levelPositions st) Side.yes = [] ∧
        (∀ L2 ∈ V2.entry_levels, L < L2 →
          ¬(ctx.no_price < L2 ∧ V2.hasPositionAtLevel st L2 = false)))) := by
  simp only [V2.checkLevelEntry] at h
  split at h
  · exact absurd h (by simp)
  · split at h
    · exact absurd h (by simp)
    · split at h
      · exact absurd h (by simp)
      · split at h
        · rename_i L hfind
          rcases findEntryLevel_some st ctx.yes_price _ _ L hfind
            with ⟨hmem, hlt, hpos, hblk⟩
          have hno : V2.sidePositions (V2.levelPositions st) Side.no = [] := by
            simpa [List.isEmpty_iff] using hblk
          have hfirst := findEntryLevel_first st ctx.yes_price _ _ L
            entry_levels_sorted hfind
          simp only [Option.some.injEq] at h
          subst h
          exact ⟨rfl, rfl, L, rfl, hmem,
            Or.inl ⟨rfl, rfl, rfl, rfl, hlt, hpos, hno, hfirst⟩⟩
        · split at h
          · rename_i L hfind
            rcases findEntryLevel_some st ctx.no_price _ _ L hfind
              with ⟨hmem, hlt, hpos, hblk⟩
            have hyes : V2.sidePositions (V2.levelPositions st) Side.yes = [] := by
              simpa [List.isEmpty_iff] using hblk
            have hfirst := findEntryLevel_first st ctx.no_price _ _ L
              entry_levels_sorted hfind
            simp only [Option.some.injEq] at h
            subst h
            exact ⟨rfl, rfl, L, rfl, hmem,
              Or.inr ⟨rfl, rfl, rfl, rfl, hlt, hpos, hyes, hfirst⟩⟩
          · exact absurd h (by simp)

/-- C6 witness: the amended selection statement evaluated at the
counterexample input (chosen level 0.34, price 0.10). -/
theorem C6_level_entry_selection_witness :
    ∃ sig, V2.checkLevelEntry {} c6Ctx 0 = some sig ∧
      (sig.metadata.is_high_price_scalp = false ∧ sig.size = V2.level_size ∧
      ∃ L, sig.metadata.level = some L ∧ L ∈ V2.entry_levels ∧
        ((sig.action = Action.ENTER_YES ∧ sig.metadata.side = Side.yes ∧
          sig.price = c6Ctx.yes_price ∧ sig.token_id = c6Ctx.token_yes ∧
          c6Ctx.yes_price < L ∧ V2.hasPositionAtLevel {} L = false ∧
          V2.sidePositions (V2.levelPositions {}) Side.no = [] ∧
          (∀ L2 ∈ V2.entry_levels, L < L2 →
            ¬(c6Ctx.yes_price < L2 ∧ V2.hasPositionAtLevel {} L2 = false))) ∨
         (sig.action = Action.ENTER_NO ∧ sig.metadata.side = Side.no ∧
          sig.price = c6Ctx.no_price ∧ sig.token_id = c6Ctx.token_no ∧
          c6Ctx.no_price < L ∧ V2.hasPositionAtLevel {} L = false ∧
          V2.sidePositions (V2.levelPositions {}) Side.yes = [] ∧
          (∀ L2 ∈ V2.entry_levels, L < L2 →
            ¬(c6Ctx.no_price < L2 ∧ V2.hasPositionAtLevel {} L2 = false))))) := by
  have h : V2.checkLevelEntry {} c6Ctx 0
      = some { action := Action.ENTER_YES, token_id := "Y", price := 1/10,
               size := V2.level_size, urgency := "MEDIUM",
               metadata := { side := Side.yes, level := some (34/100),
                             is_high_price_scalp := false,
                             profit_target := some V2.level_profit_target } } := by
    norm_num [V2.checkLevelEntry, V2.findEntryLevel, V2.entry_levels,
      V2.levelPositions, V2.sidePositions, V2.hasPositionAtLevel,
      V2.min_time_for_level_entry, V2.max_completed_cycles, c6Ctx]
  exact ⟨_, h, C6_level_entry_selection {} c6Ctx 0 _ h⟩

theorem findUnenteredLevel_some (st : V1.State) (sd : Side) (price : ℚ)
    (ls : List (Nat × ℚ)) (i : Nat) (L : ℚ)
    (h : V1.findUnenteredLevel st sd price ls = some (i, L)) :
    (i, L) ∈ ls ∧ price < L ∧ V1.lookupEntryTime st sd L = 0 := by
  induction ls with
  | nil => simp [V1.findUnenteredLevel] at h
  | cons a rest ih =>
    rcases a with ⟨j, M⟩
    simp only [V1.findUnenteredLevel] at h
    split at h
    · rename_i hlt
      split at h
      · rename_i hzero
        simp only [Option.some.injEq, Prod.mk.injEq] at h
        rcases h with ⟨h1, h2⟩
        subst h1
        subst h2
        exact ⟨List.mem_cons_self _ _, hlt, hzero⟩
      · rcases ih h with ⟨h1, h2, h3⟩
        exact ⟨List.mem_cons_of_mem _ h1, h2, h3⟩
    · rcases ih h with ⟨h1, h2, h3⟩
      exact ⟨List.mem_cons_of_mem _ h1, h2, h3⟩

theorem lookupEntryTime_record (st : V1.State) (sd : Side) (L now : ℚ) :
    V1.lookupEntryTime (V1.recordEntryTime st sd L now) sd L = now := by
  simp [V1.lookupEntryTime, V1.recordEntryTime, List.lookup]

/-- C8 counterexample data: fresh state, YES ask 0.30 (below the 0.34
level), ample time. -/
def c8Ctx : MarketContext :=
  { end_time := 1000, yes_price := 3/10, no_price := 8/10,
    token_yes := "Y", token_no := "N" }

def c8Sig : ScalpSignal :=
  { action := Action.ENTER_YES, token_id := "Y", price := 3/10, size := 10,
    urgency := "MEDIUM",
    metadata := { side := Side.yes, level := some (34/100) } }

def c8State2 : V1.State :=
  { last_entry_time := [((Side.yes, 34/100), 100)] }

def c8State3 : V1.State :=
  { last_entry_time := [((Side.yes, 34/100), 100)], trade_count := 1 }

/-- C8: the claim states the (side, level) entry record is cleared
exactly when an exit-fill ack clears that side, so that an entry at the
same level becomes possible again. Counterexample: from a fresh V1 state
an ENTER_YES for level 0.34 is emitted and recorded at time 100; after
an exit-fill ack for YES the record is still present (`on_exit_filled`
clears positions, active exit orders, the last TP price and the
exit-signal timer, but not `last_entry_time`), and the same evaluation
one second later emits nothing although its time, cycle and
active-order gates are all open. -/
theorem C8_counterexample :
    V1.checkEntry {} c8Ctx 100 = (some c8Sig, c8State2) ∧
    V1.onExitFilled c8State2 Side.yes false = c8State3 ∧
    V1.lookupEntryTime c8State3 Side.yes (34/100) = 100 ∧
    (V1.checkEntry c8State3 c8Ctx 101).1 = none ∧
    c8State3.positions = [] ∧ c8State3.active_exit_orders = [] ∧
    c8State3.trade_count < V1.max_trades_per_market ∧
    (420:ℚ) ≤ c8Ctx.end_time - 101 := by
  refine ⟨?_, ?_, ?_, ?_, rfl, rfl, ?_, ?_⟩
  · norm_num [V1.checkEntry, V1.findUnenteredLevel, V1.reversedIndexedLevels,
      V1.entry_levels, V1.lookupEntryTime, V1.recordEntryTime,
      V1.max_trades_per_market, V1.calculateOrderSize, V1.level_sizes,
      c8Ctx, c8Sig, c8State2, List.range, List.range.loop]
  · simp [V1.onExitFilled, c8State2, c8State3]
  · simp [V1.lookupEntryTime, c8State3, List.lookup]
  · norm_num [V1.checkEntry, V1.findUnenteredLevel, V1.reversedIndexedLevels,
      V1.entry_levels, V1.lookupEntryTime, V1.max_trades_per_market,
      c8Ctx, c8State3, List.range, List.range.loop, List.lookup]
  · norm_num [c8State3, V1.max_trades_per_market]
  · norm_num [c8Ctx]

/-- C8 (amended): when the V1 strategy emits an ENTER_LEVEL intent for
(side, level), the pair is recorded at emission time — an intent is only
emitted while the record is absent (reads 0), and afterwards the record
holds the emission time, so re-emission at that level is rejected from
then on; the record is never cleared: an exit-fill ack clears the side's
positions, the active exit orders, the last TP price and the exit-signal
timer, but leaves `last_entry_time` untouched, so an entry at the same
level stays blocked for the market's lifetime. -/
theorem C8_entry_debounce (st : V1.State) (ctx : MarketContext) (now : ℚ)
    (sig : ScalpSignal) (st2 : V1.State)
    (h : V1.checkEntry st ctx now = (some sig, st2)) :
    (∃ L, sig.metadata.level = some L ∧
      V1.lookupEntryTime st sig.metadata.side L = 0 ∧
      V1.lookupEntryTime st2 sig.metadata.side L = now) ∧
    (∀ st3 sd b, (V1.onExitFilled st3 sd b).last_entry_time
      = st3.last_entry_time) := by
  constructor
  · simp only [V1.checkEntry] at h
    split at h
    · simp at h
    · split at h
      · simp at h
      · split at h
        · simp at h
        · split at h
          · simp at h
          · split at h
            · rename_i i L hfind
              rcases findUnenteredLevel_some st Side.yes ctx.yes_price _ i L
                hfind with ⟨_, _, hzero⟩
              simp only [Prod.mk.injEq, Option.some.injEq] at h
              rcases h with ⟨h1, h2⟩
              subst h1
              subst h2
              exact ⟨L, rfl, hzero, lookupEntryTime_record st Side.yes L now⟩
            · split at h
              · rename_i i L hfind
                rcases findUnenteredLevel_some st Side.no ctx.no_price _ i L
                  hfind with ⟨_, _, hzero⟩
                simp only [Prod.mk.injEq, Option.some.injEq] at h
                rcases h with ⟨h1, h2⟩
                subst h1
                subst h2
                exact ⟨L, rfl, hzero, lookupEntryTime_record st Side.no L now⟩
              · simp at h
  · intro st3 sd b
    cases b
    · unfold V1.onExitFilled
      simp only [Bool.not_false, if_true]
      split <;> rfl
    · rfl

/-- C8 witness: the amended debounce statement evaluated on the fresh
state of the counterexample (level 0.34, recorded at time 100). -/
theorem C8_entry_debounce_witness :
    (∃ L, c8Sig.metadata.level = some L ∧
      V1.lookupEntryTime {} c8Sig.metadata.side L = 0 ∧
      V1.lookupEntryTime c8State2 c8Sig.metadata.side L = 100) ∧
    (∀ st3 sd b, (V1.onExitFilled st3 sd b).last_entry_time
      = st3.last_entry_time) :=
  C8_entry_debounce {} c8Ctx 100 c8Sig c8State2 (by
    norm_num [V1.checkEntry, V1.findUnenteredLevel, V1.reversedIndexedLevels,
      V1.entry_levels, V1.lookupEntryTime, V1.recordEntryTime,
      V1.max_trades_per_market, V1.calculateOrderSize, V1.level_sizes,
      c8Ctx, c8Sig, c8State2, List.range, List.range.loop])

/-- The complementary side. -/
def opposite : Side → Side
  | Side.yes => Side.no
  | Side.no => Side.yes

/-- States reachable from an empty position book by FSM-emitted entry
intents and their fill acks: each step evaluates the market on the
current state and, when an ENTER intent is emitted, applies
`on_order_filled` with the intent's side, price, size and metadata. -/
inductive ReachV2 : V2.State → Prop
  | init : ReachV2 {}
  | step (st : V2.State) (ctx : MarketContext) (now fillTime : ℚ)
      (sig : ScalpSignal) (hr : ReachV2 st)
      (he : V2.evaluateMarket st ctx now = some sig)
      (ha : sig.action = Action.ENTER_YES ∨ sig.action = Action.ENTER_NO) :
      ReachV2 (V2.onOrderFilled st sig.metadata.side sig.price sig.size
        fillTime sig.metadata)

theorem checkLevelExit_action (st : V2.State) (ctx : MarketContext)
    (sig : ScalpSignal) (h : V2.checkLevelExit st ctx = some sig) :
    sig.action = Action.PLACE_TP_LIMIT := by
  simp only [V2.checkLevelExit] at h
  split at h
  · exact absurd h (by simp)
  · split at h
    · rename_i s hs
      split at hs
      · split at hs
        · simp only [Option.some.injEq] at hs h
          subst hs
          subst h
          rfl
        · exact absurd hs (by simp)
      · exact absurd hs (by simp)
    · split at h
      · split at h
        · simp only [Option.some.injEq] at h
          subst h
          rfl
        · exact absurd h (by simp)
      · exact absurd h (by simp)

theorem checkLevelEntry_enter (st : V2.State) (ctx : MarketContext)
    (now : ℚ) (sig : ScalpSignal)
    (h : V2.checkLevelEntry st ctx now = some sig) :
    sig.metadata.is_high_price_scalp = false ∧
    ((sig.metadata.side = Side.yes ∧
      V2.sidePositions (V2.levelPositions st) Side.no = []) ∨
     (sig.metadata.side = Side.no ∧
      V2.sidePositions (V2.levelPositions st) Side.yes = [])) := by
  simp only [V2.checkLevelEntry] at h
  split at h
  · exact absurd h (by simp)
  · split at h
    · exact absurd h (by simp)
    · split at h
      · exact absurd h (by simp)
      · split at h
        · rename_i L hfind
          rcases findEntryLevel_some st ctx.yes_price _ _ L hfind
            with ⟨_, _, _, hblk⟩
          have hno : V2.sidePositions (V2.levelPositions st) Side.no = [] := by
            simpa [List.isEmpty_iff] using hblk
          simp only [Option.some.injEq] at h
          subst h
          exact ⟨rfl, Or.inl ⟨rfl, hno⟩⟩
        · split at h
          · rename_i L hfind
            rcases findEntryLevel_some st ctx.no_price _ _ L hfind
              with ⟨_, _, _, hblk⟩
            have hyes : V2.sidePositions (V2.levelPositions st) Side.yes = [] := by
              simpa [List.isEmpty_iff] using hblk
            simp only [Option.some.injEq] at h
            subst h
            exact ⟨rfl, Or.inr ⟨rfl, hyes⟩⟩
          · exact absurd h (by simp)

theorem evaluateMarket_enter (st : V2.State) (ctx : MarketContext) (now : ℚ)
    (sig : ScalpSignal) (he : V2.evaluateMarket st ctx now = some sig)
    (ha : sig.action = Action.ENTER_YES ∨ sig.action = Action.ENTER_NO) :
    sig.metadata.is_high_price_scalp = true ∨
    (sig.metadata.is_high_price_scalp = false ∧
     ((sig.metadata.side = Side.yes ∧
       V2.sidePositions (V2.levelPositions st) Side.no = []) ∨
      (sig.metadata.side = Side.no ∧
       V2.sidePositions (V2.levelPositions st) Side.yes = []))) := by
  simp only [V2.evaluateMarket] at he
  split at he
  · split at he
    · rename_i s hs
      have := checkForceUnwind_action st ctx s hs
      simp only [Option.some.injEq] at he
      subst he
      rcases ha with h | h <;> simp [this] at h
    · split at he
      · rename_i s hs
        have := checkHighScalpExit_action st ctx s hs
        simp only [Option.some.injEq] at he
        subst he
        rcases ha with h | h <;> simp [this] at h
      · exact Or.inl (checkHighScalpEntry_high st ctx now sig he)
  · split at he
    · rename_i s hs
      have := checkLevelExit_action st ctx s hs
      simp only [Option.some.injEq] at he
      subst he
      rcases ha with h | h <;> simp [this] at h
    · exact Or.inr (checkLevelEntry_enter st ctx now sig he)

theorem sideLevel_onOrderFilled (st : V2.State) (sd : Side)
    (price size t : ℚ) (meta : Metadata) (osd : Side) :
    V2.sidePositions (V2.levelPositions
        (V2.onOrderFilled st sd price size t meta)) osd
      = V2.sidePositions (V2.levelPositions st) osd ++
        (if meta.is_high_price_scalp = false ∧ sd = osd then
          [{ side := sd, entry_price := price, size := size, entry_time := t,
             is_high_scalp := meta.is_high_price_scalp,
             profit_target := meta.profit_target.getD V2.level_profit_target }]
         else []) := by
  by_cases hh : meta.is_high_price_scalp = true
  · simp [V2.onOrderFilled, V2.levelPositions, V2.sidePositions,
      List.filter_append, hh]
  · have hh2 : meta.is_high_price_scalp = false := by simpa using hh
    by_cases hsd : sd = osd
    · simp [V2.onOrderFilled, V2.levelPositions, V2.sidePositions,
        List.filter_append, hh2, hsd]
    · simp [V2.onOrderFilled, V2.levelPositions, V2.sidePositions,
        List.filter_append, hh2, hsd]

theorem reach_one_sided (st : V2.State) (h : ReachV2 st) :
    V2.sidePositions (V2.levelPositions st) Side.yes = [] ∨
    V2.sidePositions (V2.levelPositions st) Side.no = [] := by
  induction h with
  | init => simp [V2.levelPositions, V2.sidePositions]
  | step st ctx now fillTime sig hr he ha ih =>
    rcases evaluateMarket_enter st ctx now sig he ha with hhigh | ⟨hflag, hside⟩
    · rw [sideLevel_onOrderFilled, sideLevel_onOrderFilled]
      rw [if_neg (by simp [hhigh]), if_neg (by simp [hhigh])]
      simpa using ih
    · rcases hside with ⟨hyes, hno⟩ | ⟨hno, hyes⟩
      · right
        rw [sideLevel_onOrderFilled]
        rw [if_neg (by simp [hyes])]
        simpa using hno
      · left
        rw [sideLevel_onOrderFilled]
        rw [if_neg (by simp [hno])]
        simpa using hyes

/-- C1: starting from an empty position book and applying only
FSM-emitted entry intents and their fill acks, at most one side ever
holds LEVEL positions; moreover, in any reachable state the strategy
never emits a LEVEL entry intent for a side while the opposite side
holds at least one LEVEL position. -/
theorem C1_no_hedged_level_book (st : V2.State) (h : ReachV2 st) :
    (V2.sidePositions (V2.levelPositions st) Side.yes = [] ∨
     V2.sidePositions (V2.levelPositions st) Side.no = []) ∧
    (∀ ctx now sig, V2.evaluateMarket st ctx now = some sig →
      (sig.action = Action.ENTER_YES ∨ sig.action = Action.ENTER_NO) →
      sig.metadata.is_high_price_scalp = false →
      V2.sidePositions (V2.levelPositions st) (opposite sig.metadata.side)
        = []) := by
  refine ⟨reach_one_sided st h, ?_⟩
  intro ctx now sig he ha hflag
  rcases evaluateMarket_enter st ctx now sig he ha with hhigh | ⟨_, hside⟩
  · rw [hflag] at hhigh
    simp at hhigh
  · rcases hside with ⟨hyes, hno⟩ | ⟨hno, hyes⟩
    · rw [hyes]
      exact hno
    · rw [hno]
      exact hyes

/-- C1 witness: the invariant evaluated at the empty initial state. -/
theorem C1_no_hedged_level_book_witness :
    (V2.sidePositions (V2.levelPositions {}) Side.yes = [] ∨
     V2.sidePositions (V2.levelPositions {}) Side.no = []) ∧
    (∀ ctx now sig, V2.evaluateMarket {} ctx now = some sig →
      (sig.action = Action.ENTER_YES ∨ sig.action = Action.ENTER_NO) →
      sig.metadata.is_high_price_scalp = false →
      V2.sidePositions (V2.levelPositions {}) (opposite sig.metadata.side)
        = []) :=
  C1_no_hedged_level_book {} ReachV2.init

end Claims

end PolyScalping
